import Mathlib

/-!
Shallow embedding of `src/examples/mobgen.py` (the Ferari map-variant
generator) and proofs of its specified properties.

The script loads a base JSON document, and `gen_mobs(n)` builds a fresh
mapping holding the base document's `mobs.player` entry plus `n` freshly
generated mob records keyed `mob_1 .. mob_n`.  The main loop builds one
variant document per scale in `[500, 5000, 10000, 100000, 1000000]`,
writes it to `demo_map_<n>.json` and prints `demo_map_<n>.json created`.

JSON values are modelled by an inductive type with rational numerics;
Python dicts are association lists in insertion order.  The process-wide
random source is modelled as a stream of naturals together with a read
position; `random.randint(a, b)` maps a raw draw into `[a, b]` by
`a + r % (b - a + 1)` and `random.choice([x, y])` picks by parity,
so every draw respects the Python functions' range contracts.
-/

/-- JSON values, as produced by `json.load`.  Numbers are rationals. -/
inductive Json where
  | num (q : Rat)
  | str (s : String)
  | bool (b : Bool)
  | null
  | arr (elems : List Json)
  | obj (fields : List (String × Json))

/-- First-match lookup in an association list, i.e. Python `d[k]` on a
dict represented in insertion order. -/
def lookup : List (String × Json) → String → Option Json
  | [], _ => none
  | (k', v) :: rest, k => if k' = k then some v else lookup rest k

/-- Python `d[k]` on a JSON value: only objects have members. -/
def jLookup : Json → String → Option Json
  | .obj fields, k => lookup fields k
  | _, _ => none

/-- Python `d[k] = v` on a dict: replace the first binding of `k` in
place (insertion order kept), or append a new binding at the end. -/
def setKey : List (String × Json) → String → Json → List (String × Json)
  | [], k, v => [(k, v)]
  | (k', v') :: rest, k, v =>
      if k' = k then (k, v) :: rest else (k', v') :: setKey rest k v

/-- Python `d.copy()` followed by `d[k] = v`, on a JSON value. -/
def setKeyJson (j : Json) (k : String) (v : Json) : Json :=
  match j with
  | .obj fields => .obj (setKey fields k v)
  | _ => j

/-- The process-wide random source: an infinite stream of raw naturals
together with the position of the next unread draw. -/
def RNG : Type := (Nat → Nat) × Nat

/-- Take one raw draw and advance the position. -/
def rngNext (g : RNG) : Nat × RNG := (g.1 g.2, (g.1, g.2 + 1))

/-- Model of `random.randint(a, b)`: one draw, mapped into the closed
interval `[a, b]`. -/
def randint (a b : Nat) (g : RNG) : Nat × RNG :=
  let p := rngNext g
  (a + p.1 % (b - a + 1), p.2)

/-- Model of `random.choice([x, y])` on a two-element list: one draw,
picking by parity. -/
def choice2 (x y : String) (g : RNG) : String × RNG :=
  let p := rngNext g
  (if p.1 % 2 = 0 then x else y, p.2)

/-- Does `startOf` occur at the head of `s`? -/
def listStartsWith : List Char → List Char → Bool
  | _, [] => true
  | [], _ :: _ => false
  | a :: as, b :: bs => a == b && listStartsWith as bs

/-- Does `pat` occur as a contiguous run somewhere in the list? -/
def subOccurs (pat : List Char) : List Char → Bool
  | [] => pat.isEmpty
  | c :: rest => listStartsWith (c :: rest) pat || subOccurs pat rest

/-- Python `pat in s` on strings: substring containment. -/
def strContains (s pat : String) : Bool := subOccurs pat.data s.data

/-- One decimal digit as a character. -/
def digitChar : Nat → Char
  | 0 => '0' | 1 => '1' | 2 => '2' | 3 => '3' | 4 => '4'
  | 5 => '5' | 6 => '6' | 7 => '7' | 8 => '8' | _ => '9'

/-- Numeric value of a decimal digit character. -/
def digitVal (c : Char) : Nat := c.toNat - 48

/-- Fuel-driven digit expansion; `fuel` bounds the recursion depth and
any `fuel > n` yields the decimal digits of `n`, most significant
first. -/
def natToDigitsGo : Nat → Nat → List Char
  | 0, _ => []
  | fuel + 1, n =>
      if n < 10 then [digitChar n]
      else natToDigitsGo fuel (n / 10) ++ [digitChar (n % 10)]

/-- Decimal digits of a natural number, most significant first
(Python `str(i)` for nonnegative `i`). -/
def natToDigits (n : Nat) : List Char := natToDigitsGo (n + 1) n

/-- Python `str(i)` for a natural number. -/
def natToString (n : Nat) : String := String.mk (natToDigits n)

/-- Python `str(i)` for an integer. -/
def intToString : Int → String
  | Int.ofNat m => natToString m
  | Int.negSucc m => "-" ++ natToString (m + 1)

/-- Value denoted by a big-endian list of decimal digit characters. -/
def digitsVal (ds : List Char) : Nat :=
  ds.foldl (fun acc c => 10 * acc + digitVal c) 0

/-- The f-string key `f"mob_{i}"`. -/
def mobKey (i : Nat) : String := "mob_" ++ natToString i

/-- Error kinds of the generator (spec §7).  The only kind the embedded
code can raise is the missing `mobs.player` field. -/
inductive GenError where
  | MissingFieldError
deriving DecidableEq

/-- The read `base["mobs"]["player"]` at the top of `gen_mobs`
(mobgen.py line 8): fails when the document lacks `mobs.player`. -/
def getPlayer (base : Json) : Except GenError Json :=
  match jLookup base "mobs" with
  | some mobsField =>
      match jLookup mobsField "player" with
      | some p => .ok p
      | none => .error .MissingFieldError
  | none => .error .MissingFieldError

/-- One mob record (mobgen.py lines 11-24): draws asset, direction, x
and y in source order; `speed` is computed from the asset tag, not
drawn. -/
def mkMob (g : RNG) : Json × RNG :=
  let t := choice2 "imp_20_0" "ghost_30_0" g
  let speed : Rat := if strContains t.1 "imp" then 0.5 else 0.42
  let d := choice2 "left" "right" t.2
  let x := randint 100 600 d.2
  let y := randint 100 600 x.2
  (Json.obj [("x_start", .num x.1), ("y_start", .num y.1),
             ("asset", .str t.1), ("is_player", .bool false),
             ("behaviour", .obj [("type", .str "walker"),
                                 ("direction", .str d.1),
                                 ("speed", .num speed)])], y.2)

/-- The loop `for i in range(1, n + 1)` of `gen_mobs`, generating `k`
records keyed `mob_i, mob_(i+1), ...` in order. -/
def mobEntries : Nat → Nat → RNG → List (String × Json) × RNG
  | 0, _, g => ([], g)
  | k + 1, i, g =>
      let m := mkMob g
      let rest := mobEntries k (i + 1) m.2
      ((mobKey i, m.1) :: rest.1, rest.2)

/-- `gen_mobs(n)` (mobgen.py lines 6-25): read `base.mobs.player`, then
build the fresh mapping `{"player": player, "mob_1": ..., ...}`.
`range(1, n + 1)` is empty for `n ≤ 0`, hence the `Int.toNat` clamp. -/
def gen_mobs (base : Json) (n : Int) (g : RNG) :
    Except GenError (List (String × Json) × RNG) :=
  match getPlayer base with
  | .error e => .error e
  | .ok player =>
      let r := mobEntries n.toNat 1 g
      .ok (("player", player) :: r.1, r.2)

/-- One loop iteration's document build (mobgen.py lines 28-29):
`new_map = base.copy(); new_map["mobs"] = gen_mobs(n)`. -/
def buildVariant (base : Json) (n : Int) (g : RNG) :
    Except GenError (Json × RNG) :=
  match gen_mobs base n g with
  | .error e => .error e
  | .ok r => .ok (setKeyJson base "mobs" (.obj r.1), r.2)

/-- The artifact name `f"demo_map_{n}.json"`. -/
def fileName (n : Int) : String := "demo_map_" ++ intToString n ++ ".json"

/-- Observable effects of the main loop: a file write or a console
line. -/
inductive Event where
  | write (filename : String) (doc : Json)
  | console (line : String)

/-- Label of an event, used to state trace shapes. -/
def eventLabel : Event → String
  | .write f _ => "write " ++ f
  | .console s => "console " ++ s

/-- The main loop (mobgen.py lines 27-32): for each scale build the
variant, write `demo_map_<n>.json`, then print the completion line.  An
uncaught error aborts the run, emitting nothing for that scale. -/
def runMain (base : Json) : List Int → RNG → List Event × Option GenError
  | [], _ => ([], none)
  | n :: rest, g =>
      match buildVariant base n g with
      | .error e => ([], some e)
      | .ok r =>
          let tail := runMain base rest r.2
          (Event.write (fileName n) r.1 ::
             Event.console (fileName n ++ " created") :: tail.1, tail.2)

/-- The hard-coded scale list of mobgen.py line 27. -/
def scalesList : List Int := [500, 5000, 10000, 100000, 1000000]

/-- Two random-source states that will yield the same draw sequence. -/
def RngEquiv (g1 g2 : RNG) : Prop :=
  ∀ k, g1.1 (g1.2 + k) = g2.1 (g2.2 + k)

/-- A concrete raw stream: the identity sequence `0, 1, 2, ...`. -/
def stream0 : Nat → Nat := fun k => k

/-- The same sequence shifted: `1, 2, 3, ...`. -/
def streamSucc : Nat → Nat := fun k => k + 1

/-- A concrete random-source state at the start of `stream0`. -/
def g0 : RNG := (stream0, 0)

/-- The concrete player record of spec Scenario A. -/
def demoPlayer : Json := .obj [("x", .num 0), ("y", .num 0)]

/-- Top-level fields of the Scenario A base document. -/
def demoFields : List (String × Json) :=
  [("mobs", .obj [("player", demoPlayer)])]

/-- The Scenario A base document `{"mobs": {"player": {"x": 0, "y": 0}}}`. -/
def demoBase : Json := .obj demoFields

/-- The mob record `gen_mobs` produces from `g0`'s first four draws
`0, 1, 2, 3`: asset `imp_20_0`, direction `right`, position (102, 103). -/
def demoMob1 : Json := .obj [("x_start", .num 102), ("y_start", .num 103),
  ("asset", .str "imp_20_0"), ("is_player", .bool false),
  ("behaviour", .obj [("type", .str "walker"), ("direction", .str "right"),
                      ("speed", .num 0.5)])]

/-- The mapping returned by `gen_mobs demoBase 1 g0`. -/
def demoMobs : List (String × Json) :=
  [("player", demoPlayer), ("mob_1", demoMob1)]

/-- A base document whose `mobs` object lacks `player` (Scenario C). -/
def badBase : Json := .obj [("mobs", .obj [("other", .null)])]

/-! ## Helper lemmas -/

theorem digitVal_digitChar (d : Nat) (h : d < 10) : digitVal (digitChar d) = d := by
  interval_cases d <;> rfl

theorem digitsVal_natToDigitsGo : ∀ (fuel n : Nat), n < fuel →
    digitsVal (natToDigitsGo fuel n) = n := by
  intro fuel
  induction fuel with
  | zero => intro n h; omega
  | succ fuel ih =>
    intro n h
    simp only [natToDigitsGo]
    by_cases h10 : n < 10
    · rw [if_pos h10]
      simp [digitsVal, digitVal_digitChar n h10]
    · rw [if_neg h10]
      have hdiv : n / 10 < n := Nat.div_lt_self (by omega) (by omega)
      have hrec := ih (n / 10) (by omega)
      have hm : n % 10 < 10 := Nat.mod_lt _ (by omega)
      simp only [digitsVal, List.foldl_append, List.foldl_cons,
        List.foldl_nil] at *
      rw [hrec, digitVal_digitChar (n % 10) hm]
      omega

theorem digitsVal_natToDigits (n : Nat) : digitsVal (natToDigits n) = n :=
  digitsVal_natToDigitsGo (n + 1) n (by omega)

theorem natToDigits_inj {i j : Nat} (h : natToDigits i = natToDigits j) : i = j := by
  have h2 := congrArg digitsVal h
  rwa [digitsVal_natToDigits, digitsVal_natToDigits] at h2

theorem mobKey_data (i : Nat) :
    (mobKey i).data = 'm' :: 'o' :: 'b' :: '_' :: natToDigits i := rfl

theorem mobKey_inj {i j : Nat} (h : mobKey i = mobKey j) : i = j := by
  have h2 := congrArg String.data h
  rw [mobKey_data, mobKey_data] at h2
  injection h2 with _ h2
  injection h2 with _ h2
  injection h2 with _ h2
  injection h2 with _ h2
  exact natToDigits_inj h2

theorem mobKey_ne_player (i : Nat) : mobKey i ≠ "player" := by
  intro h
  have h2 := congrArg String.data h
  rw [mobKey_data, show "player".data = ['p','l','a','y','e','r'] from rfl] at h2
  injection h2 with h3 _
  exact absurd h3 (by decide)

theorem lookup_setKey_self (l : List (String × Json)) (k : String) (v : Json) :
    lookup (setKey l k v) k = some v := by
  induction l with
  | nil => simp [setKey, lookup]
  | cons hd tl ih =>
    obtain ⟨k0, v0⟩ := hd
    by_cases h : k0 = k
    · subst h; simp [setKey, lookup]
    · simp [setKey, lookup, h, ih]

theorem lookup_setKey_ne (l : List (String × Json)) (k k' : String) (v : Json)
    (h : k' ≠ k) : lookup (setKey l k v) k' = lookup l k' := by
  induction l with
  | nil =>
    have hne : ¬ (k = k') := fun hh => h hh.symm
    simp [setKey, lookup, hne]
  | cons hd tl ih =>
    obtain ⟨k0, v0⟩ := hd
    by_cases h0 : k0 = k
    · subst h0
      have hne : ¬ (k0 = k') := fun hh => h (hh.symm)
      simp [setKey, lookup, hne]
    · by_cases h1 : k0 = k'
      · subst h1; simp [setKey, lookup, h0]
      · simp [setKey, lookup, h0, h1, ih]

theorem getPlayer_ok_obj (base p : Json) (h : getPlayer base = .ok p) :
    ∃ fields, base = .obj fields := by
  cases base <;> simp [getPlayer, jLookup] at h <;> exact ⟨_, rfl⟩

theorem mobEntries_keys (k : Nat) : ∀ (i : Nat) (g : RNG),
    ((mobEntries k i g).1).map Prod.fst = (List.range' i k).map mobKey := by
  induction k with
  | zero => intro i g; simp [mobEntries]
  | succ k ih =>
    intro i g
    simp only [mobEntries, List.range', List.map_cons]
    rw [ih (i + 1)]

theorem mem_mobEntries : ∀ (k i : Nat) (g : RNG) (pr : String × Json),
    pr ∈ (mobEntries k i g).1 → ∃ g', pr.2 = (mkMob g').1 := by
  intro k
  induction k with
  | zero => intro i g pr hm; simp [mobEntries] at hm
  | succ k ih =>
    intro i g pr hm
    simp only [mobEntries, List.mem_cons] at hm
    rcases hm with hm | hm
    · exact ⟨g, by rw [hm]⟩
    · exact ih (i + 1) (mkMob g).2 pr hm

theorem mkMob_fields (g : RNG) : ∃ (x y : Nat) (a dir : String),
    (mkMob g).1 = Json.obj [("x_start", .num x), ("y_start", .num y),
      ("asset", .str a), ("is_player", .bool false),
      ("behaviour", .obj [("type", .str "walker"), ("direction", .str dir),
        ("speed", .num (if strContains a "imp" then (0.5 : Rat) else 0.42))])] ∧
    100 ≤ x ∧ x ≤ 600 ∧ 100 ≤ y ∧ y ≤ 600 ∧
    (a = "imp_20_0" ∨ a = "ghost_30_0") ∧ (dir = "left" ∨ dir = "right") := by
  simp only [mkMob, choice2, randint, rngNext]
  refine ⟨_, _, _, _, rfl, ?_, ?_, ?_, ?_, ?_, ?_⟩
  · omega
  · omega
  · omega
  · omega
  · split <;> simp
  · split <;> simp

theorem gen_mobs_ok_inv (base : Json) (n : Int) (g gF : RNG)
    (mobs : List (String × Json))
    (h : gen_mobs base n g = .ok (mobs, gF)) :
    ∃ p, getPlayer base = .ok p ∧
      mobs = ("player", p) :: (mobEntries n.toNat 1 g).1 ∧
      gF = (mobEntries n.toNat 1 g).2 := by
  cases hp : getPlayer base with
  | error e => simp [gen_mobs, hp] at h
  | ok p =>
    simp only [gen_mobs, hp, Except.ok.injEq, Prod.mk.injEq] at h
    exact ⟨p, rfl, h.1.symm, h.2.symm⟩

theorem mobEntries_length (k : Nat) : ∀ (i : Nat) (g : RNG),
    ((mobEntries k i g).1).length = k := by
  induction k with
  | zero => intro i g; rfl
  | succ k ih => intro i g; simp [mobEntries, ih (i + 1)]

theorem gen_mobs_keys_aux (base p : Json) (n : Nat) (g : RNG)
    (h : getPlayer base = .ok p) :
    gen_mobs base (n : Int) g =
      .ok (("player", p) :: (mobEntries n 1 g).1, (mobEntries n 1 g).2) := by
  simp [gen_mobs, h]

/-! ## Claim theorems -/

/-- C1: for every base document containing `mobs.player` and every
natural `n`, `gen_mobs` succeeds and returns a mapping whose key list is
exactly `player, mob_1, ..., mob_n` — `n + 1` keys, numbered contiguously
from 1 with no duplicates; `n = 0` yields only the player entry. -/
theorem claim_C1_keys (base p : Json) (n : Nat) (g : RNG)
    (h : getPlayer base = .ok p) :
    ∃ mobs gF, gen_mobs base (n : Int) g = .ok (mobs, gF) ∧
      mobs.map Prod.fst = "player" :: (List.range' 1 n).map mobKey ∧
      (mobs.map Prod.fst).Nodup ∧
      mobs.length = n + 1 ∧
      (n = 0 → mobs = [("player", p)]) := by
  refine ⟨("player", p) :: (mobEntries n 1 g).1, (mobEntries n 1 g).2,
    gen_mobs_keys_aux base p n g h, ?_, ?_, ?_, ?_⟩
  · simp [mobEntries_keys]
  · rw [show ((("player", p) :: (mobEntries n 1 g).1).map Prod.fst) =
        "player" :: (List.range' 1 n).map mobKey by simp [mobEntries_keys]]
    refine List.nodup_cons.mpr ⟨?_, ?_⟩
    · intro hmem
      obtain ⟨i, _, hkey⟩ := List.mem_map.mp hmem
      exact mobKey_ne_player i hkey
    · exact (List.nodup_range' _ _).map (fun i j hij => mobKey_inj hij)
  · simp [mobEntries_length]
  · intro h0
    subst h0
    rfl

/-- C2: for every base document containing `mobs.player`, the `player`
entry of the mapping returned by `gen_mobs` is exactly `base.mobs.player`,
and it is carried unchanged into the variant document built from that
mapping. -/
theorem claim_C2_player (base p : Json) (n : Int) (g gF : RNG)
    (mobs : List (String × Json))
    (hp : getPlayer base = .ok p)
    (h : gen_mobs base n g = .ok (mobs, gF)) :
    lookup mobs "player" = some p ∧
    ∃ vdoc, buildVariant base n g = .ok (vdoc, gF) ∧
      ∃ vm, jLookup vdoc "mobs" = some (.obj vm) ∧
        lookup vm "player" = some p := by
  obtain ⟨p', hp', hmobs, hgF⟩ := gen_mobs_ok_inv base n g gF mobs h
  have hpp : p' = p := by
    have h2 := hp.symm.trans hp'
    injection h2 with h2
    exact h2.symm
  subst hpp
  obtain ⟨fields, hb⟩ := getPlayer_ok_obj _ _ hp
  refine ⟨?_, setKeyJson base "mobs" (.obj mobs), ?_, mobs, ?_, ?_⟩
  · rw [hmobs]; simp [lookup]
  · simp [buildVariant, h]
  · rw [hb]
    simp only [setKeyJson, jLookup]
    exact lookup_setKey_self fields "mobs" (.obj mobs)
  · rw [hmobs]; simp [lookup]

/-- C10: for a base document containing `mobs.player` and a negative
`n`, `gen_mobs` does not fail: it returns the same result as at `n = 0`,
a mapping holding only the player entry, and consumes no draws from the
random source. -/
theorem claim_C10_negative (base p : Json) (n : Int) (g : RNG)
    (hn : n < 0) (hp : getPlayer base = .ok p) :
    gen_mobs base n g = gen_mobs base 0 g ∧
      gen_mobs base n g = .ok ([("player", p)], g) := by
  have ht : n.toNat = 0 := Int.toNat_of_nonpos (by omega)
  constructor
  · simp [gen_mobs, ht]
  · simp [gen_mobs, hp, ht, mobEntries]

/-- C3: every generated mob record has integer `x_start` and `y_start`
in the closed range `[100, 600]`, whatever raw values the random source
supplies. -/
theorem claim_C3_range (base : Json) (n : Int) (g gF : RNG)
    (mobs : List (String × Json))
    (h : gen_mobs base n g = .ok (mobs, gF)) :
    ∀ pr ∈ mobs, pr.1 ≠ "player" →
      ∃ x y : Nat, jLookup pr.2 "x_start" = some (.num x) ∧
        jLookup pr.2 "y_start" = some (.num y) ∧
        100 ≤ x ∧ x ≤ 600 ∧ 100 ≤ y ∧ y ≤ 600 := by
  intro pr hm hne
  obtain ⟨p, hp, hmobs, -⟩ := gen_mobs_ok_inv base n g gF mobs h
  subst hmobs
  rcases List.mem_cons.mp hm with hm | hm
  · exact absurd (congrArg Prod.fst hm) hne
  · obtain ⟨g', hpr⟩ := mem_mobEntries _ _ _ _ hm
    obtain ⟨x, y, a, dir, hobj, hx1, hx2, hy1, hy2, -, -⟩ := mkMob_fields g'
    rw [hpr, hobj]
    exact ⟨x, y, rfl, rfl, hx1, hx2, hy1, hy2⟩

/-- C4: in every generated mob record, `behaviour.speed` is exactly
`0.5` when the asset string contains `"imp"` and exactly `0.42`
otherwise — fully determined by the asset, never drawn. -/
theorem claim_C4_speed (base : Json) (n : Int) (g gF : RNG)
    (mobs : List (String × Json))
    (h : gen_mobs base n g = .ok (mobs, gF)) :
    ∀ pr ∈ mobs, pr.1 ≠ "player" →
      ∃ (a : String) (b : Json), jLookup pr.2 "asset" = some (.str a) ∧
        jLookup pr.2 "behaviour" = some b ∧
        jLookup b "speed" =
          some (.num (if strContains a "imp" then (0.5 : Rat) else 0.42)) := by
  intro pr hm hne
  obtain ⟨p, hp, hmobs, -⟩ := gen_mobs_ok_inv base n g gF mobs h
  subst hmobs
  rcases List.mem_cons.mp hm with hm | hm
  · exact absurd (congrArg Prod.fst hm) hne
  · obtain ⟨g', hpr⟩ := mem_mobEntries _ _ _ _ hm
    obtain ⟨x, y, a, dir, hobj, -, -, -, -, -, -⟩ := mkMob_fields g'
    rw [hpr, hobj]
    exact ⟨a, _, rfl, rfl, rfl⟩

/-- C5: every generated mob record has `is_player = false`,
`behaviour.type = "walker"`, direction exactly `"left"` or `"right"`,
and asset exactly `"imp_20_0"` or `"ghost_30_0"`. -/
theorem claim_C5_domains (base : Json) (n : Int) (g gF : RNG)
    (mobs : List (String × Json))
    (h : gen_mobs base n g = .ok (mobs, gF)) :
    ∀ pr ∈ mobs, pr.1 ≠ "player" →
      jLookup pr.2 "is_player" = some (.bool false) ∧
      (∃ b, jLookup pr.2 "behaviour" = some b ∧
        jLookup b "type" = some (.str "walker") ∧
        (jLookup b "direction" = some (.str "left") ∨
         jLookup b "direction" = some (.str "right"))) ∧
      (jLookup pr.2 "asset" = some (.str "imp_20_0") ∨
       jLookup pr.2 "asset" = some (.str "ghost_30_0")) := by
  intro pr hm hne
  obtain ⟨p, hp, hmobs, -⟩ := gen_mobs_ok_inv base n g gF mobs h
  subst hmobs
  rcases List.mem_cons.mp hm with hm | hm
  · exact absurd (congrArg Prod.fst hm) hne
  · obtain ⟨g', hpr⟩ := mem_mobEntries _ _ _ _ hm
    obtain ⟨x, y, a, dir, hobj, -, -, -, -, ha, hdir⟩ := mkMob_fields g'
    rw [hpr, hobj]
    refine ⟨rfl, ⟨_, rfl, rfl, ?_⟩, ?_⟩
    · rcases hdir with hdir | hdir <;> subst hdir
      · exact Or.inl rfl
      · exact Or.inr rfl
    · rcases ha with ha | ha <;> subst ha
      · exact Or.inl rfl
      · exact Or.inr rfl

/-- C6: when the base document lacks `mobs.player`, generation fails
with the `MissingFieldError` kind, and the run emits no event at all —
no mob is generated and no artifact is written. -/
theorem claim_C6_missing (base : Json)
    (h : getPlayer base = .error .MissingFieldError) :
    ∀ (n : Int) (g : RNG) (scales : List Int),
      gen_mobs base n g = .error .MissingFieldError ∧
      (runMain base scales g).1 = [] ∧
      (scales ≠ [] → (runMain base scales g).2 = some .MissingFieldError) := by
  intro n g scales
  refine ⟨by simp [gen_mobs, h], ?_, ?_⟩
  · cases scales with
    | nil => rfl
    | cons m rest => simp [runMain, buildVariant, gen_mobs, h]
  · intro hne
    cases scales with
    | nil => exact absurd rfl hne
    | cons m rest => simp [runMain, buildVariant, gen_mobs, h]

/-- C7: the variant document is the base object with only its `mobs`
field replaced: looking up any other key in the variant gives exactly
what the base gives, and `mobs` is bound to the freshly built mapping. -/
theorem claim_C7_passthrough (base : Json) (fields : List (String × Json))
    (n : Int) (g gF : RNG) (mobs : List (String × Json))
    (hb : base = .obj fields)
    (h : gen_mobs base n g = .ok (mobs, gF)) :
    buildVariant base n g = .ok (.obj (setKey fields "mobs" (.obj mobs)), gF) ∧
    (∀ k, k ≠ "mobs" →
      lookup (setKey fields "mobs" (.obj mobs)) k = lookup fields k) ∧
    lookup (setKey fields "mobs" (.obj mobs)) "mobs" = some (.obj mobs) := by
  subst hb
  refine ⟨?_, ?_, lookup_setKey_self fields "mobs" (.obj mobs)⟩
  · simp [buildVariant, h, setKeyJson]
  · intro k hk
    exact lookup_setKey_ne fields "mobs" k (.obj mobs) hk

theorem buildVariant_ok (base p : Json) (hp : getPlayer base = .ok p)
    (n : Int) (g : RNG) :
    buildVariant base n g =
      .ok (setKeyJson base "mobs"
             (.obj (("player", p) :: (mobEntries n.toNat 1 g).1)),
           (mobEntries n.toNat 1 g).2) := by
  simp [buildVariant, gen_mobs, hp]

/-- C8: with a well-formed base, the run processes the scales in the
given order, and for each scale `n` emits exactly one write of
`demo_map_<n>.json` followed by the console line
`demo_map_<n>.json created`. -/
theorem claim_C8_trace (base p : Json) (hp : getPlayer base = .ok p) :
    ∀ (scales : List Int) (g : RNG),
      ((runMain base scales g).1).map eventLabel =
        scales.flatMap (fun n =>
          ["write " ++ fileName n,
           "console " ++ (fileName n ++ " created")]) := by
  intro scales
  induction scales with
  | nil => intro g; rfl
  | cons n rest ih =>
    intro g
    simp only [runMain, buildVariant_ok base p hp n g, List.map_cons,
      eventLabel, List.flatMap_cons]
    rw [ih]
    rfl

theorem rngNext_equiv {g1 g2 : RNG} (h : RngEquiv g1 g2) :
    (rngNext g1).1 = (rngNext g2).1 ∧
      RngEquiv (rngNext g1).2 (rngNext g2).2 := by
  constructor
  · simpa [rngNext] using h 0
  · intro k
    have h2 := h (k + 1)
    simp only [rngNext]
    have e1 : g1.2 + 1 + k = g1.2 + (k + 1) := by omega
    have e2 : g2.2 + 1 + k = g2.2 + (k + 1) := by omega
    rw [e1, e2]
    exact h2

theorem choice2_equiv (x y : String) {g1 g2 : RNG} (h : RngEquiv g1 g2) :
    (choice2 x y g1).1 = (choice2 x y g2).1 ∧
      RngEquiv (choice2 x y g1).2 (choice2 x y g2).2 := by
  obtain ⟨e, he⟩ := rngNext_equiv h
  constructor
  · simp only [choice2]
    rw [e]
  · simpa [choice2] using he

theorem randint_equiv (a b : Nat) {g1 g2 : RNG} (h : RngEquiv g1 g2) :
    (randint a b g1).1 = (randint a b g2).1 ∧
      RngEquiv (randint a b g1).2 (randint a b g2).2 := by
  obtain ⟨e, he⟩ := rngNext_equiv h
  constructor
  · simp only [randint]
    rw [e]
  · simpa [randint] using he

theorem mkMob_equiv {g1 g2 : RNG} (h : RngEquiv g1 g2) :
    (mkMob g1).1 = (mkMob g2).1 ∧ RngEquiv (mkMob g1).2 (mkMob g2).2 := by
  obtain ⟨e1, h1⟩ := choice2_equiv "imp_20_0" "ghost_30_0" h
  obtain ⟨e2, h2⟩ := choice2_equiv "left" "right" h1
  obtain ⟨e3, h3⟩ := randint_equiv 100 600 h2
  obtain ⟨e4, h4⟩ := randint_equiv 100 600 h3
  constructor
  · simp only [mkMob]
    rw [e1, e2, e3, e4]
  · simpa [mkMob] using h4

theorem mobEntries_equiv (k : Nat) : ∀ (i : Nat) {g1 g2 : RNG},
    RngEquiv g1 g2 →
    (mobEntries k i g1).1 = (mobEntries k i g2).1 ∧
      RngEquiv (mobEntries k i g1).2 (mobEntries k i g2).2 := by
  induction k with
  | zero => intro i g1 g2 h; exact ⟨rfl, h⟩
  | succ k ih =>
    intro i g1 g2 h
    obtain ⟨em, hm⟩ := mkMob_equiv h
    obtain ⟨er, hr⟩ := ih (i + 1) hm
    constructor
    · simp only [mobEntries]
      rw [em, er]
    · simpa [mobEntries] using hr

/-- C9: `gen_mobs` is a pure function of the base document, the count
and the random source: two random-source states that will yield the
same draw sequence produce exactly the same mapping (and the base
document, being a value, is left unchanged). -/
theorem claim_C9_determinism (base : Json) (n : Int) (g1 g2 : RNG)
    (h : RngEquiv g1 g2) :
    Except.map Prod.fst (gen_mobs base n g1) =
      Except.map Prod.fst (gen_mobs base n g2) := by
  cases hp : getPlayer base with
  | error e => simp [gen_mobs, hp]
  | ok p =>
    obtain ⟨er, -⟩ := mobEntries_equiv n.toNat 1 h
    simp [gen_mobs, hp, Except.map, er]

/-! ## Witnesses -/

/-- Witness for C1: the Scenario A base with `n = 2`. -/
theorem claim_C1_keys_witness :
    ∃ mobs gF, gen_mobs demoBase ((2 : Nat) : Int) g0 = .ok (mobs, gF) ∧
      mobs.map Prod.fst = "player" :: (List.range' 1 2).map mobKey ∧
      (mobs.map Prod.fst).Nodup ∧
      mobs.length = 2 + 1 ∧
      (2 = 0 → mobs = [("player", demoPlayer)]) :=
  claim_C1_keys demoBase demoPlayer 2 g0 rfl

/-- Witness for C2: the Scenario A base with `n = 1`. -/
theorem claim_C2_player_witness :
    lookup demoMobs "player" = some demoPlayer ∧
    ∃ vdoc, buildVariant demoBase 1 g0 = .ok (vdoc, (stream0, 4)) ∧
      ∃ vm, jLookup vdoc "mobs" = some (.obj vm) ∧
        lookup vm "player" = some demoPlayer :=
  claim_C2_player demoBase demoPlayer 1 g0 (stream0, 4) demoMobs rfl rfl

/-- Witness for C3: the record keyed `mob_1` from `gen_mobs demoBase 1 g0`. -/
theorem claim_C3_range_witness :
    ∃ x y : Nat, jLookup demoMob1 "x_start" = some (.num x) ∧
      jLookup demoMob1 "y_start" = some (.num y) ∧
      100 ≤ x ∧ x ≤ 600 ∧ 100 ≤ y ∧ y ≤ 600 :=
  claim_C3_range demoBase 1 g0 (stream0, 4) demoMobs rfl
    ("mob_1", demoMob1) (List.Mem.tail _ (List.Mem.head _)) (by decide)

/-- Witness for C4: the record keyed `mob_1` from `gen_mobs demoBase 1 g0`. -/
theorem claim_C4_speed_witness :
    ∃ (a : String) (b : Json), jLookup demoMob1 "asset" = some (.str a) ∧
      jLookup demoMob1 "behaviour" = some b ∧
      jLookup b "speed" =
        some (.num (if strContains a "imp" then (0.5 : Rat) else 0.42)) :=
  claim_C4_speed demoBase 1 g0 (stream0, 4) demoMobs rfl
    ("mob_1", demoMob1) (List.Mem.tail _ (List.Mem.head _)) (by decide)

/-- Witness for C5: the record keyed `mob_1` from `gen_mobs demoBase 1 g0`. -/
theorem claim_C5_domains_witness :
    jLookup demoMob1 "is_player" = some (.bool false) ∧
    (∃ b, jLookup demoMob1 "behaviour" = some b ∧
      jLookup b "type" = some (.str "walker") ∧
      (jLookup b "direction" = some (.str "left") ∨
       jLookup b "direction" = some (.str "right"))) ∧
    (jLookup demoMob1 "asset" = some (.str "imp_20_0") ∨
     jLookup demoMob1 "asset" = some (.str "ghost_30_0")) :=
  claim_C5_domains demoBase 1 g0 (stream0, 4) demoMobs rfl
    ("mob_1", demoMob1) (List.Mem.tail _ (List.Mem.head _)) (by decide)

/-- Witness for C6: the Scenario C base, run over the reference scales. -/
theorem claim_C6_missing_witness :
    gen_mobs badBase 1 g0 = .error .MissingFieldError ∧
    (runMain badBase scalesList g0).1 = [] ∧
    (scalesList ≠ [] →
      (runMain badBase scalesList g0).2 = some .MissingFieldError) :=
  claim_C6_missing badBase rfl 1 g0 scalesList

/-- Witness for C7: the Scenario A base with `n = 1`. -/
theorem claim_C7_passthrough_witness :
    buildVariant demoBase 1 g0 =
      .ok (.obj (setKey demoFields "mobs" (.obj demoMobs)), (stream0, 4)) ∧
    (∀ k, k ≠ "mobs" →
      lookup (setKey demoFields "mobs" (.obj demoMobs)) k =
        lookup demoFields k) ∧
    lookup (setKey demoFields "mobs" (.obj demoMobs)) "mobs" =
      some (.obj demoMobs) :=
  claim_C7_passthrough demoBase demoFields 1 g0 (stream0, 4) demoMobs rfl rfl

/-- Witness for C8: the Scenario A base over the reference scale list. -/
theorem claim_C8_trace_witness :
    ((runMain demoBase scalesList g0).1).map eventLabel =
      scalesList.flatMap (fun n =>
        ["write " ++ fileName n,
         "console " ++ (fileName n ++ " created")]) :=
  claim_C8_trace demoBase demoPlayer rfl scalesList g0

/-- Witness for C9: two distinct states denoting the same draw
sequence `1, 2, 3, ...`. -/
theorem claim_C9_determinism_witness :
    Except.map Prod.fst (gen_mobs demoBase 3 (streamSucc, 0)) =
      Except.map Prod.fst (gen_mobs demoBase 3 (stream0, 1)) :=
  claim_C9_determinism demoBase 3 (streamSucc, 0) (stream0, 1)
    (by intro k; simp only [stream0, streamSucc]; omega)

/-- Witness for C10: the Scenario A base with `n = -1`. -/
theorem claim_C10_negative_witness :
    gen_mobs demoBase (-1) g0 = gen_mobs demoBase 0 g0 ∧
      gen_mobs demoBase (-1) g0 = .ok ([("player", demoPlayer)], g0) :=
  claim_C10_negative demoBase demoPlayer (-1) g0 (by decide) rfl
